import Mathlib

/-!
Shallow embedding of the WebRTC mesh-call coordination core
(src/zoomInfinity/src/components/Main.tsx).

Media tracks, streams, the call registry (callsRef), the displayed peer/stream
map (the peers React state) and the remaining component state are embedded as
pure data; each event handler of the source becomes a state-transition
function.  Asynchronous acquisition results (getUserMedia, getDisplayMedia)
are passed in as Option parameters; emitted network effects are traced as
Action values and teardown effects as Eff values.  The React state variable
localStream records the value last passed to setLocalStream; the JS aliasing
between it and localStreamRef is not tracked (no theorem below depends on the
content of localStream).
-/

namespace MeshCall

/-- Kind of a media track (audio or video), as distinguished by the source
via getAudioTracks / getVideoTracks and by sender track kind. -/
inductive TrackKind
  | audio
  | video
deriving DecidableEq, Repr

/-- A MediaStreamTrack: an identifier, its kind, its mutable enabled flag and
whether stop() has been called on it. -/
structure MediaTrack where
  tid : Nat
  kind : TrackKind
  enabled : Bool
  stopped : Bool
deriving DecidableEq, Repr

/-- A MediaStream is its ordered list of tracks. -/
abbrev MediaStream := List MediaTrack

/-- stream.getAudioTracks() -/
def getAudioTracks (st : MediaStream) : List MediaTrack :=
  st.filter (fun t => t.kind == TrackKind.audio)

/-- stream.getVideoTracks() -/
def getVideoTracks (st : MediaStream) : List MediaTrack :=
  st.filter (fun t => t.kind == TrackKind.video)

/-- track.stop() -/
def stopMediaTrack (t : MediaTrack) : MediaTrack :=
  { t with stopped := true }

/-- A peerjs MediaConnection as far as the coordination core observes it:
the remote identity (call.peer), whether we answered it, and the current
track id held by its outbound video RTCRtpSender, when such a sender exists
(callsRef values; the sender is the one found by
getSenders().find(s.track kind is video)). -/
structure MediaConnection where
  peer : String
  answered : Bool
  videoSenderTrack : Option Nat
deriving DecidableEq, Repr

/-- The peerjs Peer object held in peerRef, reduced to its destroyed flag. -/
structure PeerHandle where
  destroyed : Bool
deriving DecidableEq, Repr

/-- The component state of Main.tsx: React useState values, plus the refs
localStreamRef, callsRef and peerRef. -/
structure AppState where
  room : String
  joined : Bool
  myId : String
  startWithVideo : Bool
  localStream : Option MediaStream
  muted : Bool
  videoEnabled : Bool
  screenSharing : Bool
  peers : List (String × MediaStream)
  localStreamRef : Option MediaStream
  calls : List (String × MediaConnection)
  peerRef : Option PeerHandle
deriving DecidableEq, Repr

/-- Map.has for the insertion-ordered association lists modelling JS Maps. -/
def hasKey {α : Type} (m : List (String × α)) (k : String) : Bool :=
  m.any (fun e => e.fst == k)

/-- Array.from(map.keys()) -/
def mapKeys {α : Type} (m : List (String × α)) : List String :=
  m.map Prod.fst

/-- Map.set: overwrite in place when the key is present, append otherwise. -/
def mapSet {α : Type} (m : List (String × α)) (k : String) (v : α) :
    List (String × α) :=
  if hasKey m k then m.map (fun e => if e.fst == k then (k, v) else e)
  else m ++ [(k, v)]

/-- Map.delete -/
def mapDelete {α : Type} (m : List (String × α)) (k : String) :
    List (String × α) :=
  m.filter (fun e => !(e.fst == k))

/-- addPeerStream (Main.tsx 28-34): unconditionally set peers[id] := stream. -/
def addPeerStream (s : AppState) (id : String) (stream : MediaStream) :
    AppState :=
  { s with peers := mapSet s.peers id stream }

/-- removePeer (Main.tsx 37-44): delete id from the peers map and callsRef. -/
def removePeer (s : AppState) (id : String) : AppState :=
  { s with peers := mapDelete s.peers id, calls := mapDelete s.calls id }

/-- peer.call(dest, stream): an outbound call whose video sender carries the
stream's first video track when one exists. -/
def mkOutboundCall (dest : String) (stream : MediaStream) : MediaConnection :=
  { peer := dest, answered := false,
    videoSenderTrack := (getVideoTracks stream).head?.map MediaTrack.tid }

/-- setupCall (Main.tsx 47-69): early-return when callsRef already has the
remote identity; otherwise store the call and, when a stream is supplied,
answer with it (which negotiates an outbound video sender from that
stream's first video track). -/
def setupCall (s : AppState) (c : MediaConnection)
    (streamToAnswerWith : Option MediaStream) : AppState :=
  if hasKey s.calls c.peer then s
  else
    let answeredCall :=
      match streamToAnswerWith with
      | some st =>
        { c with answered := true,
                 videoSenderTrack := (getVideoTracks st).head?.map MediaTrack.tid }
      | none => c
    { s with calls := s.calls ++ [(c.peer, answeredCall)] }

/-- Network-visible effects emitted by the handlers. -/
inductive Action
  | destroyPeer
  | newPeerFresh
  | placeCall (delayMs : Nat) (dest : String) (stream : MediaStream)
  | connectData (dest : String)
  | sendPeerList (dest : String) (peers : List String)
  | closeChannel (dest : String) (afterMs : Nat)
  | alertMsg (msg : String)
deriving DecidableEq, Repr

/-- Whether an action is an outbound media call placement. -/
def isPlaceCall : Action → Bool
  | .placeCall _ _ _ => true
  | _ => false

/-- The settle delay before the host gossips to a newcomer
(setTimeout 1000, Main.tsx 109/120). -/
def settleDelayMs : Nat := 1000

/-- The grace period after which the host closes the signaling channel
(setTimeout(conn.close, 1000), Main.tsx 117). -/
def channelGraceMs : Nat := 1000

/-- join, after getUserMedia succeeded (Main.tsx 74-86, 123): store the
stream in ref and state, set videoEnabled from startWithVideo, and hold the
freshly constructed Peer in peerRef. -/
def joinAcquire (s : AppState) (stream : MediaStream) : AppState :=
  { s with localStreamRef := some stream, localStream := some stream,
           videoEnabled := s.startWithVideo, peerRef := some ⟨false⟩ }

/-- peer.on open (Main.tsx 88-92): record the granted identity and join. -/
def hostOnOpen (s : AppState) (id : String) : AppState :=
  { s with myId := id, joined := true }

/-- peer.on error (Main.tsx 94-102): on the unavailable-id collision,
destroy the colliding Peer and run initGuest, which constructs a fresh Peer
with a service-generated identity and stores it in peerRef; any other error
only alerts. -/
def joinOnError (s : AppState) (errType : String) : AppState × List Action :=
  if errType == "unavailable-id" then
    ({ s with peerRef := some ⟨false⟩ },
     [Action.destroyPeer, Action.newPeerFresh])
  else (s, [Action.alertMsg "Connection failed"])

/-- guest.on open inside initGuest (Main.tsx 137-145): record the fresh
identity, join, and place the outbound call to the room (host) identity with
the local stream, registering it through setupCall. -/
def guestOnOpen (s : AppState) (freshId : String) (stream : MediaStream) :
    AppState × List Action :=
  let s1 := { s with myId := freshId, joined := true }
  (setupCall s1 (mkOutboundCall s.room stream) none,
   [Action.placeCall 0 s.room stream])

/-- peer.on call, immediate part (Main.tsx 105-106): answer through
setupCall; the returned Nat is the setTimeout delay after which
hostGossipTimer runs (Main.tsx 109-120). -/
def hostOnCall (s : AppState) (caller : String) (stream : MediaStream) :
    AppState × Nat :=
  (setupCall s { peer := caller, answered := false, videoSenderTrack := none }
    (some stream),
   settleDelayMs)

/-- The registry snapshot excluding the newcomer (Main.tsx 110-112). -/
def snapshotExcluding (s : AppState) (n : String) : List String :=
  (mapKeys s.calls).filter (fun id => !(id == n))

/-- The body of the host's gossip timer (Main.tsx 109-120): read the
registry excluding the newcomer; only when non-empty, connect a data
channel, send the peer-list message, and schedule the channel close after
the grace period. -/
def hostGossipTimer (s : AppState) (n : String) : List Action :=
  let existing := snapshotExcluding s n
  if existing.length > 0 then
    [Action.connectData n, Action.sendPeerList n existing,
     Action.closeChannel n channelGraceMs]
  else []

/-- The guest's peer-list data handler (Main.tsx 149-160): for each listed
identity in order, when callsRef does not yet hold it, synchronously place
an outbound call with the local stream (no setTimeout: delay 0) and
register it through setupCall. -/
def onPeerList (stream : MediaStream) :
    List String → AppState → AppState × List Action
  | [], s => (s, [])
  | pid :: rest, s =>
    if hasKey s.calls pid then onPeerList stream rest s
    else
      let s1 := setupCall s (mkOutboundCall pid stream) none
      let out := onPeerList stream rest s1
      (out.1, Action.placeCall 0 pid stream :: out.2)

/-- Flip the enabled flag of the first audio track
(audioTrack.enabled = not audioTrack.enabled on getAudioTracks()[0]). -/
def flipFirstAudio : MediaStream → MediaStream
  | [] => []
  | t :: ts =>
    if t.kind == TrackKind.audio then { t with enabled := !t.enabled } :: ts
    else t :: flipFirstAudio ts

/-- Flip the enabled flag of the first video track. -/
def flipFirstVideo : MediaStream → MediaStream
  | [] => []
  | t :: ts =>
    if t.kind == TrackKind.video then { t with enabled := !t.enabled } :: ts
    else t :: flipFirstVideo ts

/-- stream.removeTrack(getVideoTracks()[0]). -/
def removeFirstVideo : MediaStream → MediaStream
  | [] => []
  | t :: ts =>
    if t.kind == TrackKind.video then ts else t :: removeFirstVideo ts

/-- toggleMute (Main.tsx 166-173): guarded by localStreamRef; flip the first
audio track's enabled flag and set muted to its negation (the new enabled
value is the negation of the old one, so muted becomes the old value). -/
def toggleMute (s : AppState) : AppState :=
  match s.localStreamRef with
  | none => s
  | some st =>
    match (getAudioTracks st).head? with
    | none => s
    | some tr =>
      { s with localStreamRef := some (flipFirstAudio st), muted := tr.enabled }

/-- callsRef.forEach: find each call's video sender and replaceTrack
(Main.tsx 203-208, 238-243, 267-272): only calls that do have a video
sender are updated. -/
def replaceTrackInCalls (m : List (String × MediaConnection)) (newTid : Nat) :
    List (String × MediaConnection) :=
  m.map (fun e =>
    (e.fst,
     { e.snd with videoSenderTrack := e.snd.videoSenderTrack.map (fun _ => newTid) }))

/-- stopScreenShare (Main.tsx 250-276): guarded by screenSharing and the
stream ref; stop and remove the capture (first video) track, then attempt
getUserMedia(video) whose outcome is the camResult parameter.  On success
add the camera track, publish the stream, clear screenSharing and replace
the outbound video track on every call that has a video sender; on failure
(catch) only setVideoEnabled(false).  The returned list holds the ids of
the tracks the function stopped. -/
def stopScreenShare (s : AppState) (camResult : Option MediaTrack) :
    AppState × List Nat :=
  if !s.screenSharing then (s, []) else
  match s.localStreamRef with
  | none => (s, [])
  | some st =>
    let stoppedTids := ((getVideoTracks st).head?.map MediaTrack.tid).toList
    let st1 := removeFirstVideo st
    match camResult with
    | some camTrack =>
      let st2 := st1 ++ [camTrack]
      ({ s with localStreamRef := some st2, localStream := some st2,
                screenSharing := false,
                calls := replaceTrackInCalls s.calls camTrack.tid },
       stoppedTids)
    | none =>
      ({ s with localStreamRef := some st1, videoEnabled := false },
       stoppedTids)

/-- toggleVideo (Main.tsx 176-213): guarded by localStreamRef; while screen
sharing it defers to stopScreenShare; with an existing video track it flips
its enabled flag; otherwise it consumes a camera acquisition result and, on
success, adds the track, publishes the stream and replaces the outbound
video track in every call that has a video sender. -/
def toggleVideo (s : AppState) (camResult : Option MediaTrack) : AppState :=
  match s.localStreamRef with
  | none => s
  | some st =>
    if s.screenSharing then (stopScreenShare s camResult).1
    else
      match (getVideoTracks st).head? with
      | some tr =>
        { s with localStreamRef := some (flipFirstVideo st),
                 videoEnabled := !tr.enabled }
      | none =>
        match camResult with
        | some vTrack =>
          let st1 := st ++ [vTrack]
          { s with localStreamRef := some st1, localStream := some st1,
                   videoEnabled := true,
                   calls := replaceTrackInCalls s.calls vTrack.tid }
        | none => s

/-- startScreenShare (Main.tsx 216-248): with an acquired display track,
remove and stop the current video track when present, add the capture
track, publish, set flags, and replace the outbound video track in every
call that has a video sender. -/
def startScreenShare (s : AppState) (displayResult : Option MediaTrack) :
    AppState :=
  match displayResult with
  | none => s
  | some videoTrack =>
    match s.localStreamRef with
    | none => s
    | some st =>
      let st2 := removeFirstVideo st ++ [videoTrack]
      { s with localStreamRef := some st2, localStream := some st2,
               screenSharing := true, videoEnabled := true,
               calls := replaceTrackInCalls s.calls videoTrack.tid }

/-- Teardown effects emitted by leave, in emission order. -/
inductive Eff
  | stopTrack (tid : Nat)
  | closeCall (p : String)
  | destroyPeer
deriving DecidableEq, Repr

/-- leave (Main.tsx 282-294): stop every track of localStreamRef, close
every call, clear callsRef, destroy the peer, and reset the React state.
localStreamRef itself is not cleared by the source; its tracks are merely
stopped.  The effect list records the emission order of the teardown. -/
def leave (s : AppState) : AppState × List Eff :=
  let stopEffs := (s.localStreamRef.getD []).map (fun t => Eff.stopTrack t.tid)
  let closeEffs := s.calls.map (fun e => Eff.closeCall e.fst)
  let destroyEffs := (s.peerRef.map (fun _ => Eff.destroyPeer)).toList
  ({ s with joined := false, peers := [], localStream := none,
            screenSharing := false, videoEnabled := false, muted := false,
            calls := [],
            localStreamRef := s.localStreamRef.map (fun st => st.map stopMediaTrack),
            peerRef := s.peerRef.map (fun _ => { destroyed := true }) },
   stopEffs ++ closeEffs ++ destroyEffs)

/-- The count rendered as "N online" (Main.tsx 353, 367):
peerArray.length + 1. -/
def displayedCount (s : AppState) : Nat := s.peers.length + 1

/-- The number of registered (hence non-Closed) remote identities. -/
def registrySize (s : AppState) : Nat := s.calls.length

/-- Role of the local participant. -/
inductive Role
  | Host
  | Guest
deriving DecidableEq, Repr

/-- The local participant is the Host exactly when its granted identity is
the room identity (Main.tsx 388). -/
def role (s : AppState) : Role :=
  if s.myId == s.room then Role.Host else Role.Guest

/-- The component's initial state (useState initializers, refs null);
the room value is the text-input content at join time. -/
def initState (room : String) (startWithVideo : Bool) : AppState :=
  { room := room, joined := false, myId := "", startWithVideo := startWithVideo,
    localStream := none, muted := false, videoEnabled := false,
    screenSharing := false, peers := [], localStreamRef := none,
    calls := [], peerRef := none }

/-- The discrete events the component reacts to.  streamReceived models a
call.on stream delivery for a currently registered call (the handler is
installed by setupCall); a delivery for an identity that was meanwhile
removed is analysed separately through addPeerStream. -/
inductive Ev
  | joinMedia (st : MediaStream)
  | hostOpen (id : String)
  | hostError (errType : String)
  | guestOpen (freshId : String)
  | inboundCall (caller : String)
  | streamReceived (id : String) (stream : MediaStream)
  | callClosed (id : String)
  | callErrored (id : String)
  | peerListMsg (ps : List String)
  | toggleMuteEv
  | toggleVideoEv (cam : Option MediaTrack)
  | startShareEv (d : Option MediaTrack)
  | stopShareEv (cam : Option MediaTrack)
  | leaveEv
deriving DecidableEq, Repr

/-- One event-handler execution. -/
def step (s : AppState) : Ev → AppState
  | .joinMedia st => joinAcquire s st
  | .hostOpen id => hostOnOpen s id
  | .hostError e => (joinOnError s e).1
  | .guestOpen fresh =>
    match s.localStreamRef with
    | some st => (guestOnOpen s fresh st).1
    | none => s
  | .inboundCall caller =>
    match s.localStreamRef with
    | some st => (hostOnCall s caller st).1
    | none => s
  | .streamReceived id stream =>
    if hasKey s.calls id then addPeerStream s id stream else s
  | .callClosed id => removePeer s id
  | .callErrored id => removePeer s id
  | .peerListMsg ps =>
    match s.localStreamRef with
    | some st => (onPeerList st ps s).1
    | none => s
  | .toggleMuteEv => toggleMute s
  | .toggleVideoEv cam => toggleVideo s cam
  | .startShareEv d => startScreenShare s d
  | .stopShareEv cam => (stopScreenShare s cam).1
  | .leaveEv => (leave s).1

/-- States reachable from some initial state by handler executions. -/
inductive Reachable : AppState → Prop
  | init (room : String) (swv : Bool) : Reachable (initState room swv)
  | next (s : AppState) (e : Ev) : Reachable s → Reachable (step s e)

/-- A sequence of register operations: call objects together with the
optional stream used to answer them. -/
def applyRegisters (s : AppState)
    (ops : List (MediaConnection × Option MediaStream)) : AppState :=
  ops.foldl (fun t op => setupCall t op.1 op.2) s

/-- The registry holds pairwise distinct remote identities. -/
def registryOK (s : AppState) : Prop := (mapKeys s.calls).Nodup

instance (s : AppState) : Decidable (registryOK s) :=
  inferInstanceAs (Decidable ((mapKeys s.calls).Nodup))

theorem hasKey_iff {α : Type} (m : List (String × α)) (k : String) :
    hasKey m k = true ↔ k ∈ mapKeys m := by
  constructor
  · intro h
    rcases List.any_eq_true.mp h with ⟨e, he, hek⟩
    exact eq_of_beq hek ▸ List.mem_map_of_mem Prod.fst he
  · intro h
    rcases List.mem_map.mp h with ⟨e, he, rfl⟩
    exact List.any_eq_true.mpr ⟨e, he, beq_self_eq_true e.fst⟩

theorem setupCall_keys (s : AppState) (c : MediaConnection)
    (ans : Option MediaStream) :
    mapKeys (setupCall s c ans).calls =
      if hasKey s.calls c.peer then mapKeys s.calls
      else mapKeys s.calls ++ [c.peer] := by
  unfold setupCall
  split
  · simp
  · simp [mapKeys]

theorem setupCall_nodup (s : AppState) (c : MediaConnection)
    (ans : Option MediaStream) (h : (mapKeys s.calls).Nodup) :
    (mapKeys (setupCall s c ans).calls).Nodup := by
  rw [setupCall_keys]
  split
  · exact h
  · next hk =>
    have hnm : c.peer ∉ mapKeys s.calls := by
      intro hmem
      exact hk ((hasKey_iff s.calls c.peer).mpr hmem)
    simp [List.nodup_append, h, hnm]

theorem applyRegisters_nodup
    (ops : List (MediaConnection × Option MediaStream)) (s : AppState)
    (h : (mapKeys s.calls).Nodup) :
    (mapKeys (applyRegisters s ops).calls).Nodup := by
  induction ops generalizing s with
  | nil => simpa [applyRegisters] using h
  | cons op rest ih =>
    simp only [applyRegisters, List.foldl_cons]
    exact ih _ (setupCall_nodup s op.1 op.2 h)

/-- C1: registering (setupCall) an identity that is already present in the
Connection Registry (callsRef) is a no-op on the state, and consequently
any sequence of register operations starting from a duplicate-free registry
leaves the registry duplicate-free: no two entries ever exist for the same
remote identity. -/
theorem c1_registry_at_most_one_entry (s : AppState)
    (h : registryOK s) :
    (∀ c ans, hasKey s.calls c.peer = true → setupCall s c ans = s) ∧
    (∀ ops : List (MediaConnection × Option MediaStream),
      registryOK (applyRegisters s ops)) := by
  constructor
  · intro c ans hc
    unfold setupCall
    simp [hc]
  · intro ops
    exact applyRegisters_nodup ops s h

/-- Witness for C1 at a concrete state: a registry already holding g1 is
unchanged by a repeated register of g1, and a concrete register sequence
with duplicates leaves the registry duplicate-free. -/
theorem c1_registry_at_most_one_entry_witness :
    setupCall
      { initState "r" false with
        calls := [("g1", { peer := "g1", answered := true, videoSenderTrack := none })] }
      { peer := "g1", answered := false, videoSenderTrack := none } none =
      { initState "r" false with
        calls := [("g1", { peer := "g1", answered := true, videoSenderTrack := none })] } ∧
    registryOK (applyRegisters
      { initState "r" false with
        calls := [("g1", { peer := "g1", answered := true, videoSenderTrack := none })] }
      [({ peer := "g2", answered := false, videoSenderTrack := none }, none),
       ({ peer := "g1", answered := false, videoSenderTrack := none }, none),
       ({ peer := "g2", answered := false, videoSenderTrack := none }, some [])]) := by
  refine ⟨?_, ?_⟩
  · exact (c1_registry_at_most_one_entry _ (by decide)).1 _ none (by decide)
  · exact (c1_registry_at_most_one_entry _ (by decide)).2 _

theorem setupCall_room (s : AppState) (c : MediaConnection)
    (ans : Option MediaStream) : (setupCall s c ans).room = s.room := by
  unfold setupCall; split <;> rfl

theorem setupCall_myId (s : AppState) (c : MediaConnection)
    (ans : Option MediaStream) : (setupCall s c ans).myId = s.myId := by
  unfold setupCall; split <;> rfl

theorem setupCall_hasKey_self (s : AppState) (c : MediaConnection)
    (ans : Option MediaStream) :
    hasKey (setupCall s c ans).calls c.peer = true := by
  unfold setupCall
  split
  · assumption
  · simp [hasKey]

/-- No action in the list places an outbound media call. -/
def noPlaceCall (as : List Action) : Bool :=
  as.all (fun a => !isPlaceCall a)

/-- C2: on the specific unavailable-id collision error the joiner destroys
the colliding registration and constructs a fresh service-identified Peer
(joinOnError); once the fresh identity arrives, the guest's open handler
leaves it in the Guest role, emits the outbound call to the desired room
identity with the local stream, and registers that call; and the host-side
gossip timer — the only host reaction to an inbound call beyond answering —
never emits an outbound call placement. -/
theorem c2_collision_becomes_guest_and_calls_host
    (s t u : AppState) (fresh : String) (stream : MediaStream)
    (hfresh : fresh ≠ t.room) :
    (joinOnError s "unavailable-id").2 =
      [Action.destroyPeer, Action.newPeerFresh] ∧
    role (guestOnOpen t fresh stream).1 = Role.Guest ∧
    (guestOnOpen t fresh stream).2 = [Action.placeCall 0 t.room stream] ∧
    hasKey (guestOnOpen t fresh stream).1.calls t.room = true ∧
    (∀ n, noPlaceCall (hostGossipTimer u n) = true) := by
  refine ⟨?_, ?_, ?_, ?_, ?_⟩
  · simp [joinOnError]
  · have hmy : (guestOnOpen t fresh stream).1.myId = fresh := by
      simp [guestOnOpen, setupCall_myId]
    have hrm : (guestOnOpen t fresh stream).1.room = t.room := by
      simp [guestOnOpen, setupCall_room]
    rw [role, hmy, hrm]
    simp [hfresh]
  · rfl
  · simpa [guestOnOpen, mkOutboundCall] using
      setupCall_hasKey_self { t with myId := fresh, joined := true }
        (mkOutboundCall t.room stream) none
  · intro n
    by_cases h : (snapshotExcluding u n).length > 0 <;>
      simp [hostGossipTimer, h, noPlaceCall, isPlaceCall]

/-- Witness for C2 at concrete inputs: the initial state with room r, fresh
guest identity g and an audio-only stream. -/
theorem c2_collision_becomes_guest_and_calls_host_witness :
    (joinOnError (initState "r" false) "unavailable-id").2 =
      [Action.destroyPeer, Action.newPeerFresh] ∧
    role (guestOnOpen (initState "r" false) "g"
      [{ tid := 0, kind := TrackKind.audio, enabled := true, stopped := false }]).1 =
      Role.Guest ∧
    (guestOnOpen (initState "r" false) "g"
      [{ tid := 0, kind := TrackKind.audio, enabled := true, stopped := false }]).2 =
      [Action.placeCall 0 "r"
        [{ tid := 0, kind := TrackKind.audio, enabled := true, stopped := false }]] ∧
    hasKey (guestOnOpen (initState "r" false) "g"
      [{ tid := 0, kind := TrackKind.audio, enabled := true, stopped := false }]).1.calls
      "r" = true ∧
    (∀ n, noPlaceCall (hostGossipTimer (initState "r" false) n) = true) :=
  c2_collision_becomes_guest_and_calls_host (initState "r" false)
    (initState "r" false) (initState "r" false) "g"
    [{ tid := 0, kind := TrackKind.audio, enabled := true, stopped := false }]
    (by decide)

/-- The destinations of the outbound calls an action list places, in order. -/
def calledIds (as : List Action) : List String :=
  as.filterMap (fun a =>
    match a with
    | .placeCall _ d _ => some d
    | _ => none)

/-- The scheduling delays of the outbound calls an action list places. -/
def callDelays (as : List Action) : List Nat :=
  as.filterMap (fun a =>
    match a with
    | .placeCall d _ _ => some d
    | _ => none)

/-- Whether the delays are pairwise distinct, i.e. no two calls are placed
at the same instant. -/
def allDistinctDelays : List Nat → Bool
  | [] => true
  | d :: ds => !(ds.contains d) && allDistinctDelays ds

theorem onPeerList_spec (stream : MediaStream) :
    ∀ (ps : List String) (s : AppState),
      (∀ id, id ∈ calledIds (onPeerList stream ps s).2 ↔
        (id ∈ ps ∧ id ∉ mapKeys s.calls)) ∧
      (calledIds (onPeerList stream ps s).2).Nodup ∧
      (∀ a ∈ (onPeerList stream ps s).2,
        ∃ i, a = Action.placeCall 0 i stream) ∧
      (∀ id, id ∈ mapKeys (onPeerList stream ps s).1.calls ↔
        (id ∈ mapKeys s.calls ∨ id ∈ ps)) ∧
      ((mapKeys s.calls).Nodup →
        (mapKeys (onPeerList stream ps s).1.calls).Nodup)
  | [], s => by
    simp [onPeerList, calledIds]
  | pid :: rest, s => by
    cases hk : hasKey s.calls pid with
    | true =>
      have hmem : pid ∈ mapKeys s.calls := (hasKey_iff _ _).mp hk
      obtain ⟨ih1, ih2, ih3, ih4, ih5⟩ := onPeerList_spec stream rest s
      simp only [onPeerList, hk, if_true]
      refine ⟨?_, ih2, ih3, ?_, ih5⟩
      · intro id
        by_cases hid : id = pid
        · subst hid
          simp [hmem, ih1 id]
        · simp [ih1 id, List.mem_cons, hid]
      · intro id
        by_cases hid : id = pid
        · subst hid
          simp [hmem, ih4 id]
        · simp [ih4 id, List.mem_cons, hid]
    | false =>
      have hmem : pid ∉ mapKeys s.calls := fun hm => by
        rw [(hasKey_iff s.calls pid).mpr hm] at hk
        exact Bool.true_eq_false.mp hk
      have hkeys1 : mapKeys (setupCall s (mkOutboundCall pid stream) none).calls =
          mapKeys s.calls ++ [pid] := by
        rw [setupCall_keys]
        simp [mkOutboundCall, hk]
      obtain ⟨ih1, ih2, ih3, ih4, ih5⟩ :=
        onPeerList_spec stream rest (setupCall s (mkOutboundCall pid stream) none)
      simp only [onPeerList, hk, Bool.false_eq_true, if_false]
      refine ⟨?_, ?_, ?_, ?_, ?_⟩
      · intro id
        by_cases hid : id = pid
        · subst hid
          simp [calledIds, hmem]
        · simp only [calledIds, List.filterMap_cons] at *
          simp [ih1 id, hkeys1, List.mem_cons, List.mem_append, hid]
      · have hpid : pid ∉ calledIds (onPeerList stream rest
            (setupCall s (mkOutboundCall pid stream) none)).2 := by
          rw [ih1 pid, hkeys1]
          simp
        simp only [calledIds, List.filterMap_cons]
        exact List.Nodup.cons hpid ih2
      · intro a ha
        rcases List.mem_cons.mp ha with rfl | ha
        · exact ⟨pid, rfl⟩
        · exact ih3 a ha
      · intro id
        by_cases hid : id = pid
        · subst hid
          simp [ih4 id, hkeys1]
        · simp [ih4 id, hkeys1, List.mem_cons, List.mem_append, hid]
      · intro h
        apply ih5
        rw [hkeys1]
        simp [List.nodup_append, h, hmem]

/-- C3 (amended): on a peer-list message listing P1..Pk, the guest places an
outbound call to exactly those listed identities not already present in the
Connection Registry (no duplicates), every placed call carries the current
local media stream, all calls are placed with delay 0 inside the same
handler execution (not staggered), and every called identity is registered,
keeping the registry duplicate-free. -/
theorem c3_peer_list_calls (stream : MediaStream) (ps : List String)
    (s : AppState) (h : registryOK s) :
    (∀ id, id ∈ calledIds (onPeerList stream ps s).2 ↔
      (id ∈ ps ∧ id ∉ mapKeys s.calls)) ∧
    (calledIds (onPeerList stream ps s).2).Nodup ∧
    (∀ a ∈ (onPeerList stream ps s).2,
      ∃ i, a = Action.placeCall 0 i stream) ∧
    (∀ id, id ∈ mapKeys (onPeerList stream ps s).1.calls ↔
      (id ∈ mapKeys s.calls ∨ id ∈ ps)) ∧
    registryOK (onPeerList stream ps s).1 := by
  obtain ⟨h1, h2, h3, h4, h5⟩ := onPeerList_spec stream ps s
  exact ⟨h1, h2, h3, h4, h5 h⟩

/-- Witness for C3 at concrete inputs: peer list with a duplicate and an
already-registered identity. -/
theorem c3_peer_list_calls_witness :
    ("p2" ∈ calledIds (onPeerList
        [{ tid := 0, kind := TrackKind.audio, enabled := true, stopped := false }]
        ["p1", "p2", "p2"]
        { initState "r" false with
          calls := [("p1", { peer := "p1", answered := false, videoSenderTrack := none })] }).2 ↔
      ("p2" ∈ ["p1", "p2", "p2"] ∧
        "p2" ∉ mapKeys
          ({ initState "r" false with
             calls := [("p1", { peer := "p1", answered := false, videoSenderTrack := none })] } : AppState).calls)) ∧
    (calledIds (onPeerList
        [{ tid := 0, kind := TrackKind.audio, enabled := true, stopped := false }]
        ["p1", "p2", "p2"]
        { initState "r" false with
          calls := [("p1", { peer := "p1", answered := false, videoSenderTrack := none })] }).2).Nodup := by
  have h := c3_peer_list_calls
    [{ tid := 0, kind := TrackKind.audio, enabled := true, stopped := false }]
    ["p1", "p2", "p2"]
    { initState "r" false with
      calls := [("p1", { peer := "p1", answered := false, videoSenderTrack := none })] }
    (by decide)
  exact ⟨h.1 "p2", h.2.1⟩

/-- C3 counterexample: the claim requires the calls to be staggered with a
small inter-call delay, not all placed at the same instant; on the concrete
peer list [p1, p2] with an empty registry the handler places two calls, and
both have delay 0 (the source has no setTimeout in this handler), so the
delays are simultaneous, not pairwise distinct. -/
theorem c3_counterexample_no_stagger :
    callDelays (onPeerList
      [{ tid := 0, kind := TrackKind.audio, enabled := true, stopped := false }]
      ["p1", "p2"] (initState "r" false)).2 = [0, 0] ∧
    allDistinctDelays (callDelays (onPeerList
      [{ tid := 0, kind := TrackKind.audio, enabled := true, stopped := false }]
      ["p1", "p2"] (initState "r" false)).2) = false := by
  exact ⟨by decide, by decide⟩

/-- C4: on an inbound call from newcomer N the host answers and registers
it; the gossip continuation is scheduled after the settle delay (1000 ms);
when it fires it reads the registry snapshot excluding N, and only when
that snapshot is non-empty does it open a signaling channel to N, send the
peer-list message containing exactly the snapshot identities, and schedule
the channel close after the bounded grace period (1000 ms); an empty
snapshot produces no signaling traffic. -/
theorem c4_host_gossip (s : AppState) (caller n : String)
    (stream : MediaStream) :
    hasKey (hostOnCall s caller stream).1.calls caller = true ∧
    (hostOnCall s caller stream).2 = settleDelayMs ∧
    (∀ id, id ∈ snapshotExcluding s n ↔ (id ∈ mapKeys s.calls ∧ id ≠ n)) ∧
    (snapshotExcluding s n ≠ [] →
      hostGossipTimer s n =
        [Action.connectData n, Action.sendPeerList n (snapshotExcluding s n),
         Action.closeChannel n channelGraceMs]) ∧
    (snapshotExcluding s n = [] → hostGossipTimer s n = []) ∧
    settleDelayMs = 1000 ∧ channelGraceMs = 1000 := by
  refine ⟨?_, rfl, ?_, ?_, ?_, rfl, rfl⟩
  · exact setupCall_hasKey_self s
      { peer := caller, answered := false, videoSenderTrack := none }
      (some stream)
  · intro id
    simp [snapshotExcluding, List.mem_filter]
  · intro h
    have hl : (snapshotExcluding s n).length > 0 := List.length_pos.mpr h
    simp [hostGossipTimer, hl]
  · intro h
    simp [hostGossipTimer, h]

/-- Witness for C4 at a concrete state: the host already holds g1 when g2
calls in; the snapshot excluding g2 is [g1], so the gossip timer opens a
channel, sends exactly [g1] and schedules the close. -/
theorem c4_host_gossip_witness :
    hasKey (hostOnCall
      { initState "r" false with
        calls := [("g1", { peer := "g1", answered := true, videoSenderTrack := none })] }
      "g2" []).1.calls "g2" = true ∧
    hostGossipTimer
      { initState "r" false with
        calls := [("g1", { peer := "g1", answered := true, videoSenderTrack := none })],
        peers := [], joined := true }
      "g2" = [Action.connectData "g2", Action.sendPeerList "g2" ["g1"],
              Action.closeChannel "g2" 1000] := by
  constructor
  · exact (c4_host_gossip
      { initState "r" false with
        calls := [("g1", { peer := "g1", answered := true, videoSenderTrack := none })] }
      "g2" "g2" []).1
  · have h := (c4_host_gossip
      { initState "r" false with
        calls := [("g1", { peer := "g1", answered := true, videoSenderTrack := none })],
        peers := [], joined := true }
      "g2" "g2" []).2.2.2.1 (by decide)
    simpa using h

/-- Phase number under the order asserted by the specification:
close connections first, then stop tracks, then release the registration.
The asserted order holds of a trace exactly when these phase numbers are
nondecreasing along it. -/
def claimPhase : Eff → Nat
  | .closeCall _ => 0
  | .stopTrack _ => 1
  | .destroyPeer => 2

/-- C5 counterexample: from a concrete joined state with one audio track,
one live call and a registered peer, leave emits stopTrack before
closeCall, so the claimed order (close every connection, then stop every
track, then release the registration) is violated. -/
theorem c5_counterexample_order :
    (leave { initState "r" false with
      joined := true,
      localStreamRef :=
        some [{ tid := 0, kind := TrackKind.audio, enabled := true, stopped := false }],
      calls := [("g", { peer := "g", answered := true, videoSenderTrack := none })],
      peerRef := some { destroyed := false } }).2 =
      [Eff.stopTrack 0, Eff.closeCall "g", Eff.destroyPeer] ∧
    ¬ List.Chain' (fun a b => a ≤ b)
      ((leave { initState "r" false with
        joined := true,
        localStreamRef :=
          some [{ tid := 0, kind := TrackKind.audio, enabled := true, stopped := false }],
        calls := [("g", { peer := "g", answered := true, videoSenderTrack := none })],
        peerRef := some { destroyed := false } }).2.map claimPhase) := by
  refine ⟨by decide, ?_⟩
  intro h
  rw [show (leave { initState "r" false with
        joined := true,
        localStreamRef :=
          some [{ tid := 0, kind := TrackKind.audio, enabled := true, stopped := false }],
        calls := [("g", { peer := "g", answered := true, videoSenderTrack := none })],
        peerRef := some { destroyed := false } }).2 =
      [Eff.stopTrack 0, Eff.closeCall "g", Eff.destroyPeer] from by decide] at h
  simp [claimPhase, List.chain'_cons] at h

/-- C5 (amended): leave stops every local media track, then closes every
live connection, then releases the identity registration, in that order;
afterwards every remaining track is stopped, the registry is empty and the
peer registration is destroyed; leave is idempotent on the state, and
invoking it when never joined leaves the initial state unchanged and emits
no effects. -/
theorem c5_leave_stops_closes_destroys (s : AppState) :
    (∃ st cl de, (leave s).2 = st ++ cl ++ de ∧
      (∀ e ∈ st, ∃ t, e = Eff.stopTrack t) ∧
      (∀ e ∈ cl, ∃ p, e = Eff.closeCall p) ∧
      (∀ e ∈ de, e = Eff.destroyPeer) ∧
      (∀ t ∈ s.localStreamRef.getD [], Eff.stopTrack t.tid ∈ st) ∧
      (∀ k ∈ mapKeys s.calls, Eff.closeCall k ∈ cl) ∧
      (s.peerRef.isSome = true → Eff.destroyPeer ∈ de)) ∧
    (∀ t ∈ (leave s).1.localStreamRef.getD [], t.stopped = true) ∧
    (leave s).1.calls = [] ∧
    (∀ p, (leave s).1.peerRef = some p → p.destroyed = true) ∧
    (leave (leave s).1).1 = (leave s).1 ∧
    (∀ room swv, leave (initState room swv) = (initState room swv, [])) := by
  refine ⟨?_, ?_, rfl, ?_, ?_, ?_⟩
  · refine ⟨_, _, _, rfl, ?_, ?_, ?_, ?_, ?_, ?_⟩
    · intro e he
      rcases List.mem_map.mp he with ⟨t, _, rfl⟩
      exact ⟨t.tid, rfl⟩
    · intro e he
      rcases List.mem_map.mp he with ⟨c, _, rfl⟩
      exact ⟨c.fst, rfl⟩
    · intro e he
      cases hp : s.peerRef with
      | none => rw [hp] at he; simp at he
      | some p => rw [hp] at he; simpa using he
    · intro t ht
      exact List.mem_map_of_mem _ ht
    · intro k hk
      rcases List.mem_map.mp hk with ⟨c, hc, rfl⟩
      exact List.mem_map_of_mem _ hc
    · intro hsome
      cases hp : s.peerRef with
      | none => rw [hp] at hsome; simp at hsome
      | some p => simp [hp]
  · intro t ht
    cases hr : s.localStreamRef with
    | none => simp [leave, hr] at ht
    | some st =>
      simp only [leave, hr, Option.map_some, Option.getD_some] at ht
      rcases List.mem_map.mp ht with ⟨u, _, rfl⟩
      rfl
  · intro p hp
    cases hr : s.peerRef with
    | none => simp [leave, hr] at hp
    | some q =>
      simp only [leave, hr, Option.map_some] at hp
      cases hp
      rfl
  · cases hr : s.localStreamRef <;> cases hp : s.peerRef <;>
      simp [leave, hr, hp, List.map_map, Function.comp_def, stopMediaTrack]
  · intro room swv
    simp [leave, initState]

/-- The enabled flag of the first audio track of the local stream ref. -/
def firstAudioEnabled (s : AppState) : Option Bool :=
  ((getAudioTracks (s.localStreamRef.getD [])).head?).map MediaTrack.enabled

/-- The exposed microphone state: the negation of the muted flag. -/
def microphoneEnabled (s : AppState) : Bool := !s.muted

theorem getAudioTracks_flipFirstAudio (st : MediaStream) :
    (getAudioTracks (flipFirstAudio st)).head? =
      ((getAudioTracks st).head?).map (fun t => { t with enabled := !t.enabled }) := by
  induction st with
  | nil => rfl
  | cons t ts ih =>
    by_cases h : t.kind = TrackKind.audio
    · simp [flipFirstAudio, getAudioTracks, h]
    · simp only [flipFirstAudio, getAudioTracks] at *
      simp only [beq_iff_eq, h]
      simp only [if_false, List.filter_cons]
      simp [h, ih]

theorem toggleMute_spec (s : AppState) (st : MediaStream) (tr : MediaTrack)
    (h1 : s.localStreamRef = some st)
    (h2 : (getAudioTracks st).head? = some tr) :
    toggleMute s =
      { s with localStreamRef := some (flipFirstAudio st), muted := tr.enabled } := by
  unfold toggleMute
  rw [h1]
  simp [h2]

/-- C6: from any state with a local audio track whose enabled flag agrees
with the exposed muted flag (muted is its negation, the invariant of every
reachable joined state), toggling the microphone twice returns the
microphoneEnabled value — and the muted flag — to their original values,
and after each single toggle the first audio track's enabled flag equals
microphoneEnabled (the exposed muted state is its negation). -/
theorem c6_toggle_microphone (s : AppState) (st : MediaStream) (tr : MediaTrack)
    (h1 : s.localStreamRef = some st)
    (h2 : (getAudioTracks st).head? = some tr)
    (hsync : s.muted = !tr.enabled) :
    microphoneEnabled (toggleMute (toggleMute s)) = microphoneEnabled s ∧
    (toggleMute (toggleMute s)).muted = s.muted ∧
    firstAudioEnabled (toggleMute s) = some (microphoneEnabled (toggleMute s)) ∧
    firstAudioEnabled (toggleMute (toggleMute s)) =
      some (microphoneEnabled (toggleMute (toggleMute s))) := by
  have e1 : toggleMute s =
      { s with localStreamRef := some (flipFirstAudio st), muted := tr.enabled } :=
    toggleMute_spec s st tr h1 h2
  have h2f : (getAudioTracks (flipFirstAudio st)).head? =
      some { tr with enabled := !tr.enabled } := by
    rw [getAudioTracks_flipFirstAudio, h2]
    rfl
  have e2 : toggleMute (toggleMute s) =
      { s with localStreamRef := some (flipFirstAudio (flipFirstAudio st)),
               muted := !tr.enabled } := by
    rw [e1]
    exact toggleMute_spec _ (flipFirstAudio st) _ rfl h2f
  have h2ff : (getAudioTracks (flipFirstAudio (flipFirstAudio st))).head? =
      some { tr with enabled := tr.enabled } := by
    rw [getAudioTracks_flipFirstAudio, h2f]
    simp
  refine ⟨?_, ?_, ?_, ?_⟩
  · rw [e2]
    simp [microphoneEnabled, hsync]
  · rw [e2, hsync]
  · rw [e1]
    simp [firstAudioEnabled, microphoneEnabled, h2f]
  · rw [e2]
    simp [firstAudioEnabled, microphoneEnabled, h2ff]

/-- Witness for C6 at a concrete state: joined, one enabled audio track,
not muted. -/
theorem c6_toggle_microphone_witness :
    microphoneEnabled (toggleMute (toggleMute
      { initState "r" false with
        joined := true,
        localStreamRef :=
          some [{ tid := 0, kind := TrackKind.audio, enabled := true, stopped := false }] })) =
      microphoneEnabled
      { initState "r" false with
        joined := true,
        localStreamRef :=
          some [{ tid := 0, kind := TrackKind.audio, enabled := true, stopped := false }] } ∧
    firstAudioEnabled (toggleMute
      { initState "r" false with
        joined := true,
        localStreamRef :=
          some [{ tid := 0, kind := TrackKind.audio, enabled := true, stopped := false }] }) =
      some (microphoneEnabled (toggleMute
      { initState "r" false with
        joined := true,
        localStreamRef :=
          some [{ tid := 0, kind := TrackKind.audio, enabled := true, stopped := false }] })) := by
  have h := c6_toggle_microphone
    { initState "r" false with
      joined := true,
      localStreamRef :=
        some [{ tid := 0, kind := TrackKind.audio, enabled := true, stopped := false }] }
    [{ tid := 0, kind := TrackKind.audio, enabled := true, stopped := false }]
    { tid := 0, kind := TrackKind.audio, enabled := true, stopped := false }
    rfl (by decide) (by decide)
  exact ⟨h.1, h.2.2.1⟩

theorem getVideoTracks_removeFirstVideo (st : MediaStream) :
    getVideoTracks (removeFirstVideo st) = (getVideoTracks st).tail := by
  induction st with
  | nil => rfl
  | cons t ts ih =>
    by_cases h : t.kind = TrackKind.video
    · simp [removeFirstVideo, getVideoTracks, h]
    · simp only [removeFirstVideo, getVideoTracks] at *
      simp only [beq_iff_eq, h]
      simp [h, ih]

/-- C7: from a screen-sharing state whose stream's video track is exactly
the capture track, stopScreenShare stops precisely the capture track (in
both branches) and removes it from the stream; on camera re-acquisition
success it adds the camera track (which becomes the only video track),
clears screenSharing, keeps the registry keys, and points the video sender
of every registered connection that has one at the camera track; on failure
it sets videoEnabled to false and the stream is left with no video track. -/
theorem c7_stop_screen_share (s : AppState) (st : MediaStream)
    (capture cam : MediaTrack)
    (hshare : s.screenSharing = true)
    (href : s.localStreamRef = some st)
    (hvt : getVideoTracks st = [capture])
    (hcam : cam.kind = TrackKind.video) :
    (stopScreenShare s (some cam)).2 = [capture.tid] ∧
    (stopScreenShare s (some cam)).1.localStreamRef =
      some (removeFirstVideo st ++ [cam]) ∧
    getVideoTracks (removeFirstVideo st ++ [cam]) = [cam] ∧
    (stopScreenShare s (some cam)).1.screenSharing = false ∧
    (∀ e ∈ (stopScreenShare s (some cam)).1.calls,
      e.2.videoSenderTrack = none ∨ e.2.videoSenderTrack = some cam.tid) ∧
    mapKeys (stopScreenShare s (some cam)).1.calls = mapKeys s.calls ∧
    (stopScreenShare s none).2 = [capture.tid] ∧
    (stopScreenShare s none).1.videoEnabled = false ∧
    getVideoTracks ((stopScreenShare s none).1.localStreamRef.getD []) = [] := by
  have hnovid : getVideoTracks (removeFirstVideo st) = [] := by
    rw [getVideoTracks_removeFirstVideo, hvt]
    rfl
  have hsucc : stopScreenShare s (some cam) =
      ({ s with localStreamRef := some (removeFirstVideo st ++ [cam]),
                localStream := some (removeFirstVideo st ++ [cam]),
                screenSharing := false,
                calls := replaceTrackInCalls s.calls cam.tid },
       [capture.tid]) := by
    unfold stopScreenShare
    rw [hshare, href]
    simp [hvt]
  have hfail : stopScreenShare s none =
      ({ s with localStreamRef := some (removeFirstVideo st),
                videoEnabled := false },
       [capture.tid]) := by
    unfold stopScreenShare
    rw [hshare, href]
    simp [hvt]
  refine ⟨by rw [hsucc], by rw [hsucc], ?_, by rw [hsucc], ?_, ?_,
    by rw [hfail], by rw [hfail], ?_⟩
  · rw [getVideoTracks, List.filter_append]
    rw [← getVideoTracks, hnovid]
    simp [getVideoTracks, hcam]
  · intro e he
    rw [hsucc] at he
    simp only [replaceTrackInCalls, List.mem_map] at he
    rcases he with ⟨e0, _, rfl⟩
    cases e0.2.videoSenderTrack with
    | none => exact Or.inl rfl
    | some t => exact Or.inr rfl
  · rw [hsucc]
    simp [replaceTrackInCalls, mapKeys, List.map_map, Function.comp_def]
  · rw [hfail]
    simpa using hnovid

/-- Witness for C7 at a concrete state: audio track 0 plus capture track 1,
one registered connection whose video sender holds track 1; camera
re-acquisition yields track 2. -/
theorem c7_stop_screen_share_witness :
    (stopScreenShare
      { initState "r" false with
        joined := true, screenSharing := true, videoEnabled := true,
        localStreamRef :=
          some [{ tid := 0, kind := TrackKind.audio, enabled := true, stopped := false },
                { tid := 1, kind := TrackKind.video, enabled := true, stopped := false }],
        calls := [("g", { peer := "g", answered := true, videoSenderTrack := some 1 })] }
      (some { tid := 2, kind := TrackKind.video, enabled := true, stopped := false })).2 =
      [1] ∧
    (stopScreenShare
      { initState "r" false with
        joined := true, screenSharing := true, videoEnabled := true,
        localStreamRef :=
          some [{ tid := 0, kind := TrackKind.audio, enabled := true, stopped := false },
                { tid := 1, kind := TrackKind.video, enabled := true, stopped := false }],
        calls := [("g", { peer := "g", answered := true, videoSenderTrack := some 1 })] }
      (some { tid := 2, kind := TrackKind.video, enabled := true, stopped := false })).1.screenSharing =
      false ∧
    (stopScreenShare
      { initState "r" false with
        joined := true, screenSharing := true, videoEnabled := true,
        localStreamRef :=
          some [{ tid := 0, kind := TrackKind.audio, enabled := true, stopped := false },
                { tid := 1, kind := TrackKind.video, enabled := true, stopped := false }],
        calls := [("g", { peer := "g", answered := true, videoSenderTrack := some 1 })] }
      none).1.videoEnabled = false := by
  have h := c7_stop_screen_share
    { initState "r" false with
      joined := true, screenSharing := true, videoEnabled := true,
      localStreamRef :=
        some [{ tid := 0, kind := TrackKind.audio, enabled := true, stopped := false },
              { tid := 1, kind := TrackKind.video, enabled := true, stopped := false }],
      calls := [("g", { peer := "g", answered := true, videoSenderTrack := some 1 })] }
    [{ tid := 0, kind := TrackKind.audio, enabled := true, stopped := false },
     { tid := 1, kind := TrackKind.video, enabled := true, stopped := false }]
    { tid := 1, kind := TrackKind.video, enabled := true, stopped := false }
    { tid := 2, kind := TrackKind.video, enabled := true, stopped := false }
    rfl rfl (by decide) rfl
  exact ⟨h.1, h.2.2.2.1, h.2.2.2.2.2.2.2.1⟩

theorem mapSet_mem_self {α : Type} (m : List (String × α)) (k : String)
    (v : α) : (k, v) ∈ mapSet m k v := by
  unfold mapSet
  split
  · next h =>
    rcases List.any_eq_true.mp h with ⟨e, he, hek⟩
    refine List.mem_map.mpr ⟨e, he, ?_⟩
    simp [hek]
  · simp

theorem mapSet_mem_other {α : Type} (m : List (String × α)) (k : String)
    (v : α) (other : String) (w : α) (hne : other ≠ k) :
    (other, w) ∈ mapSet m k v ↔ (other, w) ∈ m := by
  unfold mapSet
  split
  · constructor
    · intro hm
      rcases List.mem_map.mp hm with ⟨e, he, hfe⟩
      by_cases hek : e.fst = k
      · rw [if_pos (by simp [hek])] at hfe
        cases hfe
        exact absurd rfl hne
      · rw [if_neg (by simp [hek])] at hfe
        exact hfe ▸ he
    · intro hm
      refine List.mem_map.mpr ⟨(other, w), hm, ?_⟩
      simp [hne]
  · simp [List.mem_append, hne]

/-- C8 counterexample: delivering a stream for identity ghost, which has no
entry in the Connection Registry of the concrete initial-derived state, is
not a no-op: the stream handler body (addPeerStream) changes the state by
inserting ghost with its stream into the displayed peers map. -/
theorem c8_counterexample_ghost_not_noop :
    hasKey (initState "r" false).calls "ghost" = false ∧
    addPeerStream (initState "r" false) "ghost"
      [{ tid := 5, kind := TrackKind.audio, enabled := true, stopped := false }] ≠
      initState "r" false ∧
    (addPeerStream (initState "r" false) "ghost"
      [{ tid := 5, kind := TrackKind.audio, enabled := true, stopped := false }]).peers =
      [("ghost",
        [{ tid := 5, kind := TrackKind.audio, enabled := true, stopped := false }])] := by
  refine ⟨by decide, by decide, by decide⟩

/-- C8 (amended): delivering a remote stream for an identity with no entry
in the Connection Registry does not throw (the handler is total) and leaves
the call registry and every other identity's displayed stream unchanged,
but it does insert the identity and its stream into the displayed peers
map, so it is not a no-op on the observable peer set. -/
theorem c8_ghost_stream_inserts (s : AppState) (id : String)
    (stream : MediaStream) (h : hasKey s.calls id = false) :
    (addPeerStream s id stream).calls = s.calls ∧
    (∀ other w, other ≠ id →
      ((other, w) ∈ (addPeerStream s id stream).peers ↔ (other, w) ∈ s.peers)) ∧
    (id, stream) ∈ (addPeerStream s id stream).peers := by
  refine ⟨rfl, ?_, mapSet_mem_self s.peers id stream⟩
  intro other w hne
  exact mapSet_mem_other s.peers id stream other w hne

/-- Witness for C8 at a concrete state with a registered peer g1 whose
stream stays intact while ghost's stream is delivered. -/
theorem c8_ghost_stream_inserts_witness :
    (addPeerStream
      { initState "r" false with
        joined := true,
        peers := [("g1", [])],
        calls := [("g1", { peer := "g1", answered := true, videoSenderTrack := none })] }
      "ghost" []).calls =
      ({ initState "r" false with
        joined := true,
        peers := [("g1", [])],
        calls := [("g1", { peer := "g1", answered := true, videoSenderTrack := none })] } : AppState).calls ∧
    (("g1", ([] : MediaStream)) ∈ (addPeerStream
      { initState "r" false with
        joined := true,
        peers := [("g1", [])],
        calls := [("g1", { peer := "g1", answered := true, videoSenderTrack := none })] }
      "ghost" []).peers ↔
      ("g1", ([] : MediaStream)) ∈ ([("g1", [])] : List (String × MediaStream))) ∧
    ("ghost", ([] : MediaStream)) ∈ (addPeerStream
      { initState "r" false with
        joined := true,
        peers := [("g1", [])],
        calls := [("g1", { peer := "g1", answered := true, videoSenderTrack := none })] }
      "ghost" []).peers := by
  have h := c8_ghost_stream_inserts
    { initState "r" false with
      joined := true,
      peers := [("g1", [])],
      calls := [("g1", { peer := "g1", answered := true, videoSenderTrack := none })] }
    "ghost" [] (by decide)
  exact ⟨h.1, h.2.1 "g1" [] (by decide), h.2.2⟩

theorem map_fst_replace {α : Type} (m : List (String × α)) (k : String)
    (v : α) :
    mapKeys (m.map (fun e => if e.fst == k then (k, v) else e)) = mapKeys m := by
  induction m with
  | nil => rfl
  | cons e es ih =>
    by_cases h : e.fst = k
    · simp [mapKeys, h] at *
      exact ih
    · simp [mapKeys, h] at *
      exact ih

theorem mapKeys_mapSet {α : Type} (m : List (String × α)) (k : String)
    (v : α) :
    mapKeys (mapSet m k v) =
      if hasKey m k then mapKeys m else mapKeys m ++ [k] := by
  unfold mapSet
  split
  · exact map_fst_replace m k v
  · simp [mapKeys]

theorem mapKeys_mapDelete {α : Type} (m : List (String × α)) (k : String) :
    mapKeys (mapDelete m k) = (mapKeys m).filter (fun x => !(x == k)) := by
  induction m with
  | nil => rfl
  | cons e es ih =>
    by_cases h : e.fst = k
    · simp [mapDelete, mapKeys, List.filter_cons, h] at *
      exact ih
    · simp [mapDelete, mapKeys, List.filter_cons, h] at *
      exact ih

theorem replaceTrackInCalls_keys (m : List (String × MediaConnection))
    (t : Nat) : mapKeys (replaceTrackInCalls m t) = mapKeys m := by
  simp [replaceTrackInCalls, mapKeys, List.map_map, Function.comp_def]

theorem setupCall_peers (s : AppState) (c : MediaConnection)
    (ans : Option MediaStream) : (setupCall s c ans).peers = s.peers := by
  unfold setupCall
  split <;> rfl

theorem setupCall_keys_mono (s : AppState) (c : MediaConnection)
    (ans : Option MediaStream) (id : String) (h : id ∈ mapKeys s.calls) :
    id ∈ mapKeys (setupCall s c ans).calls := by
  rw [setupCall_keys]
  split
  · exact h
  · exact List.mem_append_left _ h

theorem onPeerList_peers (stream : MediaStream) :
    ∀ (ps : List String) (s : AppState),
      (onPeerList stream ps s).1.peers = s.peers
  | [], s => rfl
  | pid :: rest, s => by
    cases hk : hasKey s.calls pid with
    | true =>
      simp only [onPeerList, hk, if_true]
      exact onPeerList_peers stream rest s
    | false =>
      simp only [onPeerList, hk, Bool.false_eq_true, if_false]
      rw [onPeerList_peers stream rest _]
      exact setupCall_peers s _ none

theorem toggleMute_obs (s : AppState) :
    (toggleMute s).peers = s.peers ∧ (toggleMute s).calls = s.calls := by
  cases href : s.localStreamRef with
  | none => simp [toggleMute, href]
  | some st =>
    cases hh : (getAudioTracks st).head? with
    | none => simp [toggleMute, href, hh]
    | some tr => simp [toggleMute, href, hh]

theorem stopScreenShare_obs (s : AppState) (cam : Option MediaTrack) :
    (stopScreenShare s cam).1.peers = s.peers ∧
    mapKeys (stopScreenShare s cam).1.calls = mapKeys s.calls := by
  unfold stopScreenShare
  cases hs : s.screenSharing with
  | false => exact ⟨rfl, rfl⟩
  | true =>
    simp only [Bool.not_true, Bool.false_eq_true, if_false]
    cases s.localStreamRef with
    | none => exact ⟨rfl, rfl⟩
    | some st =>
      cases cam with
      | none => exact ⟨rfl, rfl⟩
      | some c => exact ⟨rfl, replaceTrackInCalls_keys s.calls c.tid⟩

theorem toggleVideo_obs (s : AppState) (cam : Option MediaTrack) :
    (toggleVideo s cam).peers = s.peers ∧
    mapKeys (toggleVideo s cam).calls = mapKeys s.calls := by
  unfold toggleVideo
  cases s.localStreamRef with
  | none => exact ⟨rfl, rfl⟩
  | some st =>
    by_cases hs : s.screenSharing
    · simpa [hs] using stopScreenShare_obs s cam
    · simp only [hs, Bool.false_eq_true, if_false]
      cases (getVideoTracks st).head? with
      | some tr => exact ⟨rfl, rfl⟩
      | none =>
        cases cam with
        | none => exact ⟨rfl, rfl⟩
        | some c => exact ⟨rfl, replaceTrackInCalls_keys s.calls c.tid⟩

theorem startScreenShare_obs (s : AppState) (d : Option MediaTrack) :
    (startScreenShare s d).peers = s.peers ∧
    mapKeys (startScreenShare s d).calls = mapKeys s.calls := by
  unfold startScreenShare
  cases d with
  | none => exact ⟨rfl, rfl⟩
  | some videoTrack =>
    cases s.localStreamRef with
    | none => exact ⟨rfl, rfl⟩
    | some st => exact ⟨rfl, replaceTrackInCalls_keys s.calls videoTrack.tid⟩

/-- The structural invariant of every reachable state: the displayed peer
map and the call registry both hold pairwise distinct identities, and every
displayed identity is registered. -/
def Inv (s : AppState) : Prop :=
  (mapKeys s.peers).Nodup ∧ (mapKeys s.calls).Nodup ∧
  (∀ id, id ∈ mapKeys s.peers → id ∈ mapKeys s.calls)

theorem inv_setupCall (s : AppState) (c : MediaConnection)
    (ans : Option MediaStream) (h : Inv s) : Inv (setupCall s c ans) := by
  obtain ⟨hp, hc, hsub⟩ := h
  refine ⟨?_, setupCall_nodup s c ans hc, ?_⟩
  · rw [setupCall_peers]
    exact hp
  · intro id hid
    rw [setupCall_peers] at hid
    exact setupCall_keys_mono s c ans id (hsub id hid)

theorem step_preserves_inv (s : AppState) (e : Ev) (h : Inv s) :
    Inv (step s e) := by
  obtain ⟨hp, hc, hsub⟩ := h
  cases e with
  | joinMedia st => exact ⟨hp, hc, hsub⟩
  | hostOpen id => exact ⟨hp, hc, hsub⟩
  | hostError et =>
    simp only [step, joinOnError]
    split <;> exact ⟨hp, hc, hsub⟩
  | guestOpen fresh =>
    simp only [step]
    cases s.localStreamRef with
    | none => exact ⟨hp, hc, hsub⟩
    | some st => exact inv_setupCall _ _ _ ⟨hp, hc, hsub⟩
  | inboundCall caller =>
    simp only [step]
    cases s.localStreamRef with
    | none => exact ⟨hp, hc, hsub⟩
    | some st => exact inv_setupCall _ _ _ ⟨hp, hc, hsub⟩
  | streamReceived id stream =>
    simp only [step]
    cases hk : hasKey s.calls id with
    | false => exact ⟨hp, hc, hsub⟩
    | true =>
      simp only [if_true]
      have hkeys := mapKeys_mapSet s.peers id stream
      refine ⟨?_, hc, ?_⟩
      · show (mapKeys (mapSet s.peers id stream)).Nodup
        rw [hkeys]
        split
        · exact hp
        · next hnk =>
          have : id ∉ mapKeys s.peers := fun hm => hnk ((hasKey_iff _ _).mpr hm)
          simp [List.nodup_append, hp, this]
      · intro x hx
        show x ∈ mapKeys s.calls
        rw [show (addPeerStream s id stream).peers = mapSet s.peers id stream
          from rfl, hkeys] at hx
        have hidc : id ∈ mapKeys s.calls := (hasKey_iff _ _).mp hk
        revert hx
        split
        · exact fun hx => hsub x hx
        · intro hx
          rcases List.mem_append.mp hx with hx | hx
          · exact hsub x hx
          · rw [List.mem_singleton.mp hx]
            exact hidc
  | callClosed id =>
    refine ⟨?_, ?_, ?_⟩
    · show (mapKeys (mapDelete s.peers id)).Nodup
      rw [mapKeys_mapDelete]
      exact hp.filter _
    · show (mapKeys (mapDelete s.calls id)).Nodup
      rw [mapKeys_mapDelete]
      exact hc.filter _
    · intro x hx
      replace hx : x ∈ mapKeys (mapDelete s.peers id) := hx
      show x ∈ mapKeys (mapDelete s.calls id)
      rw [mapKeys_mapDelete] at hx ⊢
      rcases List.mem_filter.mp hx with ⟨hx1, hx2⟩
      exact List.mem_filter.mpr ⟨hsub x hx1, hx2⟩
  | callErrored id =>
    refine ⟨?_, ?_, ?_⟩
    · show (mapKeys (mapDelete s.peers id)).Nodup
      rw [mapKeys_mapDelete]
      exact hp.filter _
    · show (mapKeys (mapDelete s.calls id)).Nodup
      rw [mapKeys_mapDelete]
      exact hc.filter _
    · intro x hx
      replace hx : x ∈ mapKeys (mapDelete s.peers id) := hx
      show x ∈ mapKeys (mapDelete s.calls id)
      rw [mapKeys_mapDelete] at hx ⊢
      rcases List.mem_filter.mp hx with ⟨hx1, hx2⟩
      exact List.mem_filter.mpr ⟨hsub x hx1, hx2⟩
  | peerListMsg ps =>
    simp only [step]
    cases href : s.localStreamRef with
    | none => exact ⟨hp, hc, hsub⟩
    | some st =>
      obtain ⟨_, _, _, h4, h5⟩ := onPeerList_spec st ps s
      refine ⟨?_, h5 hc, ?_⟩
      · rw [onPeerList_peers]
        exact hp
      · intro x hx
        rw [onPeerList_peers] at hx
        exact (h4 x).mpr (Or.inl (hsub x hx))
  | toggleMuteEv =>
    obtain ⟨h1, h2⟩ := toggleMute_obs s
    rw [show step s Ev.toggleMuteEv = toggleMute s from rfl, Inv, h1, h2]
    exact ⟨hp, hc, hsub⟩
  | toggleVideoEv cam =>
    obtain ⟨h1, h2⟩ := toggleVideo_obs s cam
    rw [show step s (Ev.toggleVideoEv cam) = toggleVideo s cam from rfl,
      Inv, h1, h2]
    exact ⟨hp, hc, hsub⟩
  | startShareEv d =>
    obtain ⟨h1, h2⟩ := startScreenShare_obs s d
    rw [show step s (Ev.startShareEv d) = startScreenShare s d from rfl,
      Inv, h1, h2]
    exact ⟨hp, hc, hsub⟩
  | stopShareEv cam =>
    obtain ⟨h1, h2⟩ := stopScreenShare_obs s cam
    rw [show step s (Ev.stopShareEv cam) = (stopScreenShare s cam).1 from rfl,
      Inv, h1, h2]
    exact ⟨hp, hc, hsub⟩
  | leaveEv =>
    refine ⟨?_, ?_, ?_⟩ <;> simp [step, leave, mapKeys]

theorem inv_reachable (s : AppState) (h : Reachable s) : Inv s := by
  induction h with
  | init room swv => exact ⟨List.nodup_nil, List.nodup_nil, fun id hid => hid⟩
  | next t e _ ih => exact step_preserves_inv t e ih

/-- C9 counterexample: the state reached by a successful host join followed
by an inbound call from g1 whose stream has not yet arrived is reachable,
yet the rendered count (peers map size + 1) is 1 while the registry holds
one non-Closed entry, so the claimed equality displayed = registry + 1
fails (1 against 2). -/
theorem c9_counterexample_pending_call :
    Reachable (step (step (step (initState "r" false)
      (Ev.joinMedia
        [{ tid := 0, kind := TrackKind.audio, enabled := true, stopped := false }]))
      (Ev.hostOpen "r")) (Ev.inboundCall "g1")) ∧
    displayedCount (step (step (step (initState "r" false)
      (Ev.joinMedia
        [{ tid := 0, kind := TrackKind.audio, enabled := true, stopped := false }]))
      (Ev.hostOpen "r")) (Ev.inboundCall "g1")) = 1 ∧
    registrySize (step (step (step (initState "r" false)
      (Ev.joinMedia
        [{ tid := 0, kind := TrackKind.audio, enabled := true, stopped := false }]))
      (Ev.hostOpen "r")) (Ev.inboundCall "g1")) = 1 ∧
    ¬ (displayedCount (step (step (step (initState "r" false)
      (Ev.joinMedia
        [{ tid := 0, kind := TrackKind.audio, enabled := true, stopped := false }]))
      (Ev.hostOpen "r")) (Ev.inboundCall "g1")) =
      registrySize (step (step (step (initState "r" false)
      (Ev.joinMedia
        [{ tid := 0, kind := TrackKind.audio, enabled := true, stopped := false }]))
      (Ev.hostOpen "r")) (Ev.inboundCall "g1")) + 1) := by
  refine ⟨?_, by decide, by decide, by decide⟩
  exact Reachable.next _ _ (Reachable.next _ _ (Reachable.next _ _
    (Reachable.init "r" false)))

/-- C9 (amended): in every reachable state (under the event model where
stream deliveries reach only currently registered calls), every displayed
identity is registered, the rendered count is at most the registry size
plus one, and it equals the registry size plus one exactly when every
registered identity has already delivered its stream; registered entries
whose stream is still pending are not counted by the display. -/
theorem c9_displayed_count_bound (s : AppState) (h : Reachable s) :
    (∀ id, id ∈ mapKeys s.peers → id ∈ mapKeys s.calls) ∧
    displayedCount s ≤ registrySize s + 1 ∧
    (displayedCount s = registrySize s + 1 ↔
      ∀ id, id ∈ mapKeys s.calls → id ∈ mapKeys s.peers) := by
  obtain ⟨hp, hc, hsub⟩ := inv_reachable s h
  have hPF : (mapKeys s.peers).toFinset ⊆ (mapKeys s.calls).toFinset := by
    intro x hx
    exact List.mem_toFinset.mpr (hsub x (List.mem_toFinset.mp hx))
  have hcardP : (mapKeys s.peers).toFinset.card = s.peers.length := by
    rw [List.toFinset_card_of_nodup hp, mapKeys, List.length_map]
  have hcardC : (mapKeys s.calls).toFinset.card = s.calls.length := by
    rw [List.toFinset_card_of_nodup hc, mapKeys, List.length_map]
  have hle : s.peers.length ≤ s.calls.length := by
    rw [← hcardP, ← hcardC]
    exact Finset.card_le_card hPF
  refine ⟨hsub, ?_, ?_⟩
  · simpa [displayedCount, registrySize] using Nat.succ_le_succ hle
  · constructor
    · intro heq id hid
      have hlen : s.peers.length = s.calls.length := by
        simpa [displayedCount, registrySize] using heq
      have hfe : (mapKeys s.peers).toFinset = (mapKeys s.calls).toFinset := by
        apply Finset.eq_of_subset_of_card_le hPF
        rw [hcardP, hcardC, hlen]
      have : id ∈ (mapKeys s.peers).toFinset := by
        rw [hfe]
        exact List.mem_toFinset.mpr hid
      exact List.mem_toFinset.mp this
    · intro hback
      have hCF : (mapKeys s.calls).toFinset ⊆ (mapKeys s.peers).toFinset := by
        intro x hx
        exact List.mem_toFinset.mpr (hback x (List.mem_toFinset.mp hx))
      have hfe : (mapKeys s.peers).toFinset = (mapKeys s.calls).toFinset :=
        Finset.Subset.antisymm hPF hCF
      have hlen : s.peers.length = s.calls.length := by
        rw [← hcardP, ← hcardC, hfe]
      simp [displayedCount, registrySize, hlen]

/-- Witness for C9 (amended) at the concrete reachable state of the
counterexample trace: the bound holds there (1 at most 2). -/
theorem c9_displayed_count_bound_witness :
    displayedCount (step (step (step (initState "r" false)
      (Ev.joinMedia
        [{ tid := 0, kind := TrackKind.audio, enabled := true, stopped := false }]))
      (Ev.hostOpen "r")) (Ev.inboundCall "g1")) ≤
    registrySize (step (step (step (initState "r" false)
      (Ev.joinMedia
        [{ tid := 0, kind := TrackKind.audio, enabled := true, stopped := false }]))
      (Ev.hostOpen "r")) (Ev.inboundCall "g1")) + 1 :=
  (c9_displayed_count_bound _
    (Reachable.next _ _ (Reachable.next _ _ (Reachable.next _ _
      (Reachable.init "r" false))))).2.1

/-- C10 counterexample: after leave the local stream reference persists
(leave stops the tracks but never clears localStreamRef), so from the
concrete post-leave state the guard does not fire: toggleMute mutates the
state (the muted flag flips to true), refuting the claim that after leave
these controls are guarded no-ops that leave the state unchanged. -/
theorem c10_counterexample_after_leave :
    ((leave { initState "r" false with
      joined := true, muted := false,
      localStreamRef :=
        some [{ tid := 0, kind := TrackKind.audio, enabled := true, stopped := false }],
      calls := [("g", { peer := "g", answered := true, videoSenderTrack := none })],
      peerRef := some { destroyed := false } }).1.localStreamRef).isSome = true ∧
    toggleMute (leave { initState "r" false with
      joined := true, muted := false,
      localStreamRef :=
        some [{ tid := 0, kind := TrackKind.audio, enabled := true, stopped := false }],
      calls := [("g", { peer := "g", answered := true, videoSenderTrack := none })],
      peerRef := some { destroyed := false } }).1 ≠
      (leave { initState "r" false with
      joined := true, muted := false,
      localStreamRef :=
        some [{ tid := 0, kind := TrackKind.audio, enabled := true, stopped := false }],
      calls := [("g", { peer := "g", answered := true, videoSenderTrack := none })],
      peerRef := some { destroyed := false } }).1 ∧
    (toggleMute (leave { initState "r" false with
      joined := true, muted := false,
      localStreamRef :=
        some [{ tid := 0, kind := TrackKind.audio, enabled := true, stopped := false }],
      calls := [("g", { peer := "g", answered := true, videoSenderTrack := none })],
      peerRef := some { destroyed := false } }).1).muted = true := by
  refine ⟨by decide, by decide, by decide⟩

/-- C10 (amended): whenever no local media stream reference exists — which
holds before the first successful media acquisition, but not after leave,
since leave does not clear the reference — toggleMute, toggleVideo and
stopScreenShare return immediately: the state is unchanged, no media is
acquired, and stopScreenShare stops no track. -/
theorem c10_no_stream_guards (s : AppState) (h : s.localStreamRef = none) :
    toggleMute s = s ∧
    (∀ cam, toggleVideo s cam = s) ∧
    (∀ cam, stopScreenShare s cam = (s, [])) := by
  refine ⟨?_, ?_, ?_⟩
  · simp [toggleMute, h]
  · intro cam
    simp [toggleVideo, h]
  · intro cam
    cases hs : s.screenSharing with
    | false => simp [stopScreenShare, hs]
    | true => simp [stopScreenShare, hs, h]

/-- Witness for C10 (amended) at the concrete initial state, whose stream
reference is empty. -/
theorem c10_no_stream_guards_witness :
    toggleMute (initState "r" false) = initState "r" false ∧
    toggleVideo (initState "r" false)
      (some { tid := 7, kind := TrackKind.video, enabled := true, stopped := false }) =
      initState "r" false ∧
    stopScreenShare (initState "r" false) none = (initState "r" false, []) := by
  have h := c10_no_stream_guards (initState "r" false) rfl
  exact ⟨h.1,
    h.2.1 (some { tid := 7, kind := TrackKind.video, enabled := true, stopped := false }),
    h.2.2 none⟩

end MeshCall
